import Mathlib

/-!
Shallow embedding of `generate_poem_images.py`: the backoff policy
(`exponential_backoff`), the checksum store (`get_prompt_checksum`,
`is_prompt_processed`, `mark_prompt_processed`), the generation client
(`generate_image_from_prompt`) and the batch driver
(`process_metadata_files`).

Remote calls are modelled by an oracle `Nat → CallOutcome` giving the
outcome of the n-th remote call; the filesystem is modelled by explicit
association lists of paths; the md5 hash is an abstract parameter
`md5hex : List Nat → String` applied to the UTF-8 bytes of the prompt,
exactly as `hashlib.md5(prompt.encode('utf-8')).hexdigest()` does.
-/

/-- `MAX_RETRIES = 5` from the source. -/
def MAX_RETRIES : Nat := 5

/-- `INITIAL_RETRY_DELAY = 2` seconds, from the source. -/
def INITIAL_RETRY_DELAY : ℚ := 2

/-- `MAX_RETRY_DELAY = 60` seconds, from the source. -/
def MAX_RETRY_DELAY : ℚ := 60

/-- `BASE_DELAY_BETWEEN_CALLS = 1` second, from the source. -/
def BASE_DELAY_BETWEEN_CALLS : ℚ := 1

/-- `CHECKSUM_DIR = ".image_checksums"` from the source. -/
def CHECKSUM_DIR : String := ".image_checksums"

/-- `exponential_backoff`: `delay = min(MAX_RETRY_DELAY, INITIAL_RETRY_DELAY * (2 ** retry_count))`,
then multiplied by the jitter drawn by `random.uniform(0.8, 1.2)`; the draw is
passed in as the `jitter` argument (the randomness source). -/
def exponential_backoff (retry_count : Nat) (jitter : ℚ) : ℚ :=
  min MAX_RETRY_DELAY (INITIAL_RETRY_DELAY * 2 ^ retry_count) * jitter

/-- The un-jittered delay of `exponential_backoff`, i.e. the value of the
local variable `delay` before the jitter multiplication. -/
def unjittered_delay (retry_count : Nat) : ℚ :=
  min MAX_RETRY_DELAY (INITIAL_RETRY_DELAY * 2 ^ retry_count)

/-- UTF-8 encoding of one character, modelling Python's `str.encode('utf-8')`
byte-for-byte. -/
def utf8Bytes (c : Char) : List Nat :=
  let n := c.toNat
  if n < 128 then [n]
  else if n < 2048 then [192 + n / 64, 128 + n % 64]
  else if n < 65536 then [224 + n / 4096, 128 + (n / 64) % 64, 128 + n % 64]
  else [240 + n / 262144, 128 + (n / 4096) % 64, 128 + (n / 64) % 64, 128 + n % 64]

/-- `prompt.encode('utf-8')` as a list of byte values. -/
def encodeUtf8 (s : String) : List Nat :=
  s.data.foldr (fun c acc => utf8Bytes c ++ acc) []

/-- `get_prompt_checksum(prompt)`: md5 hexdigest of the prompt's UTF-8 bytes.
The md5 function itself is the abstract parameter `md5hex`. -/
def get_prompt_checksum (md5hex : List Nat → String) (prompt : String) : String :=
  md5hex (encodeUtf8 prompt)

/-- `os.path.basename` for the forward-slash paths this program builds. -/
def basename (p : String) : String :=
  (p.splitOn "/").getLastD p

/-- The sidecar path `os.path.join(CHECKSUM_DIR, f"{os.path.basename(output_path)}.md5")`. -/
def checksum_file_path (output_path : String) : String :=
  CHECKSUM_DIR ++ "/" ++ basename output_path ++ ".md5"

/-- Filesystem state: the output image files (path ↦ bytes) and the checksum
sidecar files (path ↦ stored text). -/
structure FSState where
  outputs : List (String × List Nat)
  checksums : List (String × String)
deriving DecidableEq

/-- `is_prompt_processed(prompt, output_path)`: if the sidecar file is absent
return `False`; otherwise read it, strip it, and compare with the prompt's
checksum. -/
def is_prompt_processed (md5hex : List Nat → String) (st : FSState)
    (prompt output_path : String) : Bool :=
  let checksum := get_prompt_checksum md5hex prompt
  match st.checksums.lookup (checksum_file_path output_path) with
  | none => false
  | some stored => stored.trim == checksum

/-- `mark_prompt_processed(prompt, output_path)`: write the prompt's checksum
to the sidecar file, overwriting any prior record. -/
def mark_prompt_processed (md5hex : List Nat → String) (prompt output_path : String)
    (st : FSState) : FSState :=
  { st with checksums :=
      (checksum_file_path output_path, get_prompt_checksum md5hex prompt) :: st.checksums }

/-- One response part: either no inline image data, inline data whose PIL
processing raises (logged and skipped), or inline data that re-encodes to the
given byte stream. -/
inductive RespPart where
  | noData : RespPart
  | badData : RespPart
  | goodData : List Nat → RespPart
deriving DecidableEq

/-- Outcome of one remote `generate_content` call: a response with its list of
parts, or a raised error with its message. -/
inductive CallOutcome where
  | success : List RespPart → CallOutcome
  | error : String → CallOutcome
deriving DecidableEq

/-- The `for part in response.candidates[0].content.parts` scan: return the
re-encoded bytes of the first part whose inline data processes successfully,
skipping parts without inline data and parts whose processing raises. -/
def extractImage : List RespPart → Option (List Nat)
  | [] => none
  | RespPart.noData :: rest => extractImage rest
  | RespPart.badData :: rest => extractImage rest
  | RespPart.goodData b :: _ => some b

/-- Bool test for `a` being a contiguous substring of `b`, used to model
Python's `msg in error_message`. -/
def isPrefixChars : List Char → List Char → Bool
  | [], _ => true
  | _ :: _, [] => false
  | a :: as, b :: bs => a == b && isPrefixChars as bs

def isSubChars : List Char → List Char → Bool
  | needle, [] => needle.isEmpty
  | needle, c :: t => isPrefixChars needle (c :: t) || isSubChars needle t

/-- `needle in hay` for strings. -/
def strContainsSub (hay needle : String) : Bool :=
  isSubChars needle.toList hay.toList

/-- `str.lower()`, applied character-wise (the error messages classified by
the source are ASCII). -/
def toLowerStr (s : String) : String :=
  String.mk (s.data.map Char.toLower)

/-- The rate-limit message class from the source:
`any(msg in error_message for msg in ["rate limit", "quota", "429", "too many requests", "resource exhausted"])`. -/
def isRateLimitMessage (error_message : String) : Bool :=
  ["rate limit", "quota", "429", "too many requests", "resource exhausted"].any
    (fun m => strContainsSub error_message m)

/-- The transient-server message class from the source:
`"internal server error" in error_message or "503" in error_message`. -/
def isServerErrorMessage (error_message : String) : Bool :=
  strContainsSub error_message "internal server error" || strContainsSub error_message "503"

/-- The `while retry_count < MAX_RETRIES` loop of `generate_image_from_prompt`.
`call idx` is the outcome of the idx-th remote call; the result pairs the
returned value with the total number of remote calls made. The loop runs on
explicit fuel, always instantiated with `MAX_RETRIES - retry_count` (the
number of iterations the `while` condition still allows), so the zero-fuel
base case coincides with the exhausted `while` falling through to the final
`return None`. -/
def genLoop (call : Nat → CallOutcome) : Nat → Nat → Nat → Option (List Nat) × Nat
  | 0, _, idx => (none, idx)
  | fuel + 1, retry_count, idx =>
    if retry_count < MAX_RETRIES then
      match call idx with
      | CallOutcome.success parts =>
        match extractImage parts with
        | some b => (some b, idx + 1)
        | none => (none, idx + 1)
      | CallOutcome.error msg =>
        let error_message := toLowerStr msg
        if isRateLimitMessage error_message then
          if MAX_RETRIES ≤ retry_count + 1 then (none, idx + 1)
          else genLoop call fuel (retry_count + 1) (idx + 1)
        else if isServerErrorMessage error_message then
          if MAX_RETRIES ≤ retry_count + 1 then (none, idx + 1)
          else genLoop call fuel (retry_count + 1) (idx + 1)
        else (none, idx + 1)
    else (none, idx)

/-- `generate_image_from_prompt(prompt)`: run the retry loop from
`retry_count = 0` (with its full fuel `MAX_RETRIES - 0`); the prompt only
selects the oracle, so the oracle is the argument. Returns
(result, number of remote calls made). -/
def generate_image_from_prompt (call : Nat → CallOutcome) : Option (List Nat) × Nat :=
  genLoop call MAX_RETRIES 0 0

/-- Result of reading and parsing one metadata file: the `open`/`json.load`
raises, the parse succeeds but `'image_prompt' in metadata` is false, or the
prompt field is present. -/
inductive ReadResult where
  | readError : ReadResult
  | noPrompt : ReadResult
  | withPrompt : String → ReadResult
deriving DecidableEq

/-- Outcome of `with open(output_image_path, "wb") as f: f.write(image_data)`:
the write completes; `open` itself raises so no file is created; or `open`
creates/truncates the file and `f.write` then raises, leaving on disk whatever
prefix of the bytes was written (possibly none). -/
inductive WriteOutcome where
  | ok : WriteOutcome
  | failBeforeOpen : WriteOutcome
  | failAfterOpen : List Nat → WriteOutcome
deriving DecidableEq

/-- One discovered metadata file: its base name (the file name with
`.metadata.json` stripped), the result of reading it, the remote-call oracle
the generation client sees for it, how writing its output image goes, whether
`mark_prompt_processed`'s sidecar write succeeds (its `open` can raise, e.g.
when `.image_checksums` was removed after startup), and the value
`random.uniform(1, 3)` would draw at its inter-file pause. -/
structure MetaFile where
  name : String
  read : ReadResult
  call : Nat → CallOutcome
  write : WriteOutcome
  markOk : Bool
  pause : ℚ

/-- `output_image_path = f"{folder}/{base_name}.png"`. -/
def outputPath (folder name : String) : String :=
  folder ++ "/" ++ name ++ ".png"

/-- The running tallies and observable effects of one batch run: the three
counters, the filesystem state, the output paths written this run, the output
paths skipped this run, the inter-file pauses slept, and the number of
invocations of the generation client. -/
structure RunResult where
  processed : Nat
  skipped : Nat
  failures : Nat
  state : FSState
  generated : List String
  skippedFiles : List String
  sleeps : List ℚ
  clientInvocations : Nat

/-- The body of the `for metadata_file in metadata_files` loop of
`process_metadata_files`, for one file. The skip branch `continue`s before
the inter-file `time.sleep(random.uniform(1, 3))`; every other branch falls
through to it. The output write is modelled at the granularity of the
source's `open(output_image_path, "wb")` then `f.write(image_data)`: it may
raise before the file is created, or raise after `open` created/truncated it,
leaving a partial file on disk; `mark_prompt_processed` runs only after the
write completed and its own sidecar write may raise, after the image is
already persisted. Every raise inside the `try` records a per-file failure.
`generated` collects the output paths to which this run created a file. -/
def stepFile (md5hex : List Nat → String) (folder : String) (mf : MetaFile)
    (acc : RunResult) : RunResult :=
  if (acc.state.outputs.lookup (outputPath folder mf.name)).isSome then
    { acc with skipped := acc.skipped + 1, processed := acc.processed + 1,
               skippedFiles := acc.skippedFiles ++ [outputPath folder mf.name] }
  else
    match mf.read with
    | ReadResult.readError =>
      { acc with failures := acc.failures + 1, processed := acc.processed + 1,
                 sleeps := acc.sleeps ++ [mf.pause] }
    | ReadResult.noPrompt =>
      { acc with failures := acc.failures + 1, processed := acc.processed + 1,
                 sleeps := acc.sleeps ++ [mf.pause] }
    | ReadResult.withPrompt image_prompt =>
      match (generate_image_from_prompt mf.call).fst with
      | some image_data =>
        if image_data.isEmpty then
          { acc with clientInvocations := acc.clientInvocations + 1,
                     failures := acc.failures + 1, processed := acc.processed + 1,
                     sleeps := acc.sleeps ++ [mf.pause] }
        else
          match mf.write with
          | WriteOutcome.failBeforeOpen =>
            { acc with clientInvocations := acc.clientInvocations + 1,
                       failures := acc.failures + 1, processed := acc.processed + 1,
                       sleeps := acc.sleeps ++ [mf.pause] }
          | WriteOutcome.failAfterOpen written =>
            { acc with clientInvocations := acc.clientInvocations + 1,
                       failures := acc.failures + 1, processed := acc.processed + 1,
                       state := { acc.state with outputs :=
                         (outputPath folder mf.name, written) :: acc.state.outputs },
                       generated := acc.generated ++ [outputPath folder mf.name],
                       sleeps := acc.sleeps ++ [mf.pause] }
          | WriteOutcome.ok =>
            if mf.markOk then
              { acc with clientInvocations := acc.clientInvocations + 1,
                         processed := acc.processed + 1,
                         state := mark_prompt_processed md5hex image_prompt (outputPath folder mf.name)
                           { acc.state with outputs :=
                               (outputPath folder mf.name, image_data) :: acc.state.outputs },
                         generated := acc.generated ++ [outputPath folder mf.name],
                         sleeps := acc.sleeps ++ [mf.pause] }
            else
              { acc with clientInvocations := acc.clientInvocations + 1,
                         failures := acc.failures + 1, processed := acc.processed + 1,
                         state := { acc.state with outputs :=
                           (outputPath folder mf.name, image_data) :: acc.state.outputs },
                         generated := acc.generated ++ [outputPath folder mf.name],
                         sleeps := acc.sleeps ++ [mf.pause] }
      | none =>
        { acc with clientInvocations := acc.clientInvocations + 1,
                   failures := acc.failures + 1, processed := acc.processed + 1,
                   sleeps := acc.sleeps ++ [mf.pause] }

/-- The inner `for metadata_file in metadata_files` loop over one folder. -/
def runFolder (md5hex : List Nat → String) (folder : String × List MetaFile)
    (acc : RunResult) : RunResult :=
  folder.snd.foldl (fun a mf => stepFile md5hex folder.fst mf a) acc

/-- Fresh tallies at the start of a run, over the given filesystem state. -/
def initRun (st : FSState) : RunResult :=
  { processed := 0, skipped := 0, failures := 0, state := st,
    generated := [], skippedFiles := [], sleeps := [], clientInvocations := 0 }

/-- The outer `for folder in poem_folders` loop. -/
def runFolders (md5hex : List Nat → String) (env : List (String × List MetaFile))
    (acc : RunResult) : RunResult :=
  env.foldl (fun acc folder => runFolder md5hex folder acc) acc

/-- `process_metadata_files()`: `if not poem_folders: return 0, 0, 0`, else
the two nested loops over folders and their discovered metadata files. `env`
is the discovered `poem_folders`, each with the files `glob` yields for it in
order. -/
def process_metadata_files (md5hex : List Nat → String)
    (env : List (String × List MetaFile)) (st : FSState) : RunResult :=
  if env.isEmpty then initRun st
  else runFolders md5hex env (initRun st)

/-- `sum(len(glob.glob(f"{folder}/*.metadata.json")) for folder in poem_folders)`. -/
def totalFiles (env : List (String × List MetaFile)) : Nat :=
  (env.map (fun folder => folder.snd.length)).sum

/-- The un-jittered delay is nonnegative. -/
theorem unjittered_delay_nonneg (n : Nat) : 0 ≤ unjittered_delay n := by
  unfold unjittered_delay MAX_RETRY_DELAY INITIAL_RETRY_DELAY
  have h2n : (0:ℚ) ≤ 2 * 2 ^ n := by positivity
  exact le_min (by norm_num) h2n

/-- C4: for every attempt number n ≥ 0 the un-jittered delay equals
`min(MAX_DELAY, INITIAL_DELAY * 2^n)` with MAX_DELAY = 60 and
INITIAL_DELAY = 2, and whenever the jitter drawn by `random.uniform(0.8, 1.2)`
lies in [0.8, 1.2] the returned jittered delay lies within
[0.8, 1.2] times the un-jittered value. -/
theorem backoff_delay_formula (n : Nat) (j : ℚ)
    (h1 : (0.8:ℚ) ≤ j) (h2 : j ≤ (1.2:ℚ)) :
    unjittered_delay n = min (60:ℚ) (2 * 2 ^ n) ∧
    (0.8:ℚ) * unjittered_delay n ≤ exponential_backoff n j ∧
    exponential_backoff n j ≤ (1.2:ℚ) * unjittered_delay n := by
  have hd : 0 ≤ unjittered_delay n := unjittered_delay_nonneg n
  have hback : exponential_backoff n j = unjittered_delay n * j := rfl
  refine ⟨rfl, ?_, ?_⟩
  · rw [hback, mul_comm (unjittered_delay n) j]
    exact mul_le_mul_of_nonneg_right h1 hd
  · rw [hback, mul_comm (unjittered_delay n) j]
    exact mul_le_mul_of_nonneg_right h2 hd

/-- Witness for `backoff_delay_formula` at n = 3, jitter = 1. -/
theorem backoff_delay_formula_check :
    unjittered_delay 3 = min (60:ℚ) (2 * 2 ^ 3) ∧
    (0.8:ℚ) * unjittered_delay 3 ≤ exponential_backoff 3 1 ∧
    exponential_backoff 3 1 ≤ (1.2:ℚ) * unjittered_delay 3 :=
  backoff_delay_formula 3 1 (by norm_num) (by norm_num)

/-- C6: the checksum fingerprint is a function of the prompt's exact UTF-8
byte content; `is_prompt_processed` returns false whenever the sidecar record
named after the output's base name is absent, whatever the output files are;
and when the sidecar exists it returns true exactly when the stored digest
(stripped) equals the prompt's fingerprint. -/
theorem checksum_store_spec :
    (∀ (md5hex : List Nat → String) (p q : String), encodeUtf8 p = encodeUtf8 q →
      get_prompt_checksum md5hex p = get_prompt_checksum md5hex q) ∧
    (∀ (md5hex : List Nat → String) (st : FSState) (prompt output_path : String),
      st.checksums.lookup (checksum_file_path output_path) = none →
      is_prompt_processed md5hex st prompt output_path = false) ∧
    (∀ (md5hex : List Nat → String) (st : FSState) (prompt output_path stored : String),
      st.checksums.lookup (checksum_file_path output_path) = some stored →
      (is_prompt_processed md5hex st prompt output_path = true ↔
        stored.trim = get_prompt_checksum md5hex prompt)) := by
  refine ⟨?_, ?_, ?_⟩
  · intro md5hex p q h
    unfold get_prompt_checksum
    rw [h]
  · intro md5hex st prompt output_path h
    unfold is_prompt_processed
    rw [h]
  · intro md5hex st prompt output_path stored h
    unfold is_prompt_processed
    rw [h]
    exact beq_iff_eq

/-- Witness for `checksum_store_spec`: with an output file present but no
sidecar record, `is_prompt_processed` is false. -/
theorem checksum_store_spec_check :
    is_prompt_processed (fun _ => "d41d8cd9") ⟨[("poems/a.png", [7])], []⟩ "x" "poems/a.png"
      = false :=
  checksum_store_spec.2.1 (fun _ => "d41d8cd9") ⟨[("poems/a.png", [7])], []⟩ "x" "poems/a.png"
    (by decide)

/-- On a retryable thrown error the loop either gives up (no attempts remain)
or continues with the attempt counter incremented. -/
theorem genLoop_retry_step (call : Nat → CallOutcome) (fuel rc idx : Nat) (msg : String)
    (hf : 0 < fuel) (h1 : rc < MAX_RETRIES) (h2 : call idx = CallOutcome.error msg)
    (h3 : (isRateLimitMessage (toLowerStr msg) || isServerErrorMessage (toLowerStr msg)) = true) :
    genLoop call fuel rc idx =
      if MAX_RETRIES ≤ rc + 1 then (none, idx + 1)
      else genLoop call (fuel - 1) (rc + 1) (idx + 1) := by
  cases fuel with
  | zero => exact absurd hf (by omega)
  | succ f =>
    simp only [Nat.add_sub_cancel]
    rw [genLoop, if_pos h1, h2]
    by_cases hr : isRateLimitMessage (toLowerStr msg) = true
    · simp only [hr, if_true]
    · have hs : isServerErrorMessage (toLowerStr msg) = true := by
        rcases Bool.or_eq_true_iff.mp h3 with h | h
        · exact absurd h hr
        · exact h
      simp only [Bool.not_eq_true] at hr
      simp only [hr, hs, if_true, Bool.false_eq_true, if_false]

/-- On a non-retryable thrown error the loop returns no-result at once. -/
theorem genLoop_nonretry_step (call : Nat → CallOutcome) (fuel rc idx : Nat) (msg : String)
    (hf : 0 < fuel) (h1 : rc < MAX_RETRIES) (h2 : call idx = CallOutcome.error msg)
    (h3 : (isRateLimitMessage (toLowerStr msg) || isServerErrorMessage (toLowerStr msg)) = false) :
    genLoop call fuel rc idx = (none, idx + 1) := by
  cases fuel with
  | zero => exact absurd hf (by omega)
  | succ f =>
    rw [genLoop, if_pos h1, h2]
    rcases Bool.or_eq_false_iff.mp h3 with ⟨hr, hs⟩
    simp only [hr, hs, Bool.false_eq_true, if_false]

/-- On a successful remote call the loop returns the part scan's result. -/
theorem genLoop_success_step (call : Nat → CallOutcome) (fuel rc idx : Nat)
    (parts : List RespPart)
    (hf : 0 < fuel) (h1 : rc < MAX_RETRIES) (h2 : call idx = CallOutcome.success parts) :
    genLoop call fuel rc idx = (extractImage parts, idx + 1) := by
  cases fuel with
  | zero => exact absurd hf (by omega)
  | succ f =>
    rw [genLoop, if_pos h1, h2]
    cases h : extractImage parts <;> simp [h]

/-- The loop makes at most `fuel` further calls. -/
theorem genLoop_snd_le (call : Nat → CallOutcome) :
    ∀ (fuel rc idx : Nat), (genLoop call fuel rc idx).snd ≤ idx + fuel := by
  intro fuel
  induction fuel with
  | zero =>
    intro rc idx
    simp [genLoop]
  | succ n ih =>
    intro rc idx
    rw [genLoop]
    split
    · split
      · split <;> simp
      · split
        · dsimp only
          split
          · simp
          · split <;> simp
        · dsimp only
          have hrec := ih (rc + 1) (idx + 1)
          split
          · omega
          · split
            · omega
            · simp
    · simp

/-- C7: the retry loop terminates with at most MAX_RETRIES remote calls for
every sequence of remote-call outcomes: starting from attempt counter 0, the
total number of calls made is at most 5. -/
theorem client_calls_bounded (call : Nat → CallOutcome) :
    (generate_image_from_prompt call).snd ≤ MAX_RETRIES := by
  have h := genLoop_snd_le call MAX_RETRIES 0 0
  simpa using h

/-- If every remote call throws a retryable error, the loop exhausts its
remaining attempts, making exactly one call per remaining attempt, and
returns no-result. -/
theorem genLoop_all_retryable :
    ∀ (fuel rc : Nat), fuel = MAX_RETRIES - rc →
    ∀ (call : Nat → CallOutcome),
    (∀ n, ∃ msg, call n = CallOutcome.error msg ∧
      (isRateLimitMessage (toLowerStr msg) || isServerErrorMessage (toLowerStr msg)) = true) →
    ∀ idx, genLoop call fuel rc idx = (none, idx + fuel) := by
  intro fuel
  induction fuel with
  | zero =>
    intro rc h call hcall idx
    simp [genLoop]
  | succ n ih =>
    intro rc h call hcall idx
    obtain ⟨msg, hmsg, hclass⟩ := hcall idx
    rw [genLoop_retry_step call (n + 1) rc idx msg (by omega) (by omega) hmsg hclass]
    simp only [Nat.add_sub_cancel]
    by_cases hend : MAX_RETRIES ≤ rc + 1
    · rw [if_pos hend]
      have hn : n = 0 := by omega
      subst hn
      simp
    · rw [if_neg hend, ih (rc + 1) (by omega) call hcall (idx + 1)]
      have harith : idx + 1 + n = idx + (n + 1) := by omega
      rw [harith]

/-- C2: under every remote oracle, an error whose lowercased message matches
the rate-limit class (or the transient-server class) is retried while attempts
remain and yields no-result only after the attempt counter exhausts all
MAX_RETRIES calls; any other error message yields no-result immediately after
a single call, consuming no retry attempt. -/
theorem error_classification (msg : String) (call : Nat → CallOutcome) :
    ((isRateLimitMessage (toLowerStr msg) || isServerErrorMessage (toLowerStr msg)) = true →
      (∀ n, call n = CallOutcome.error msg) →
      generate_image_from_prompt call = (none, MAX_RETRIES)) ∧
    ((isRateLimitMessage (toLowerStr msg) || isServerErrorMessage (toLowerStr msg)) = false →
      call 0 = CallOutcome.error msg →
      generate_image_from_prompt call = (none, 1)) := by
  constructor
  · intro hclass hcall
    unfold generate_image_from_prompt
    have h := genLoop_all_retryable MAX_RETRIES 0 rfl call (fun n => ⟨msg, hcall n, hclass⟩) 0
    simpa using h
  · intro hclass h0
    unfold generate_image_from_prompt
    rw [genLoop_nonretry_step call MAX_RETRIES 0 0 msg (by decide) (by decide) h0 hclass]

/-- Witness for `error_classification`: a "429" message exhausts all 5
attempts; an "Invalid argument" message fails after exactly one call. -/
theorem error_classification_check :
    generate_image_from_prompt (fun _ => CallOutcome.error "429 Too Many Requests")
      = (none, MAX_RETRIES) ∧
    generate_image_from_prompt (fun _ => CallOutcome.error "Invalid argument: bad prompt")
      = (none, 1) :=
  ⟨(error_classification "429 Too Many Requests"
      (fun _ => CallOutcome.error "429 Too Many Requests")).1 (by decide) (fun _ => rfl),
   (error_classification "Invalid argument: bad prompt"
      (fun _ => CallOutcome.error "Invalid argument: bad prompt")).2 (by decide) rfl⟩

/-- A part list in which every part carries no inline image data scans to
no-result. -/
theorem extractImage_all_noData :
    ∀ (parts : List RespPart), (∀ pt ∈ parts, pt = RespPart.noData) →
    extractImage parts = none := by
  intro parts
  induction parts with
  | nil => intro _; rfl
  | cons hd tl ih =>
    intro h
    have hhd : hd = RespPart.noData := h hd (List.mem_cons_self hd tl)
    subst hhd
    rw [extractImage]
    exact ih (fun pt hpt => h pt (List.mem_cons_of_mem _ hpt))

/-- C3: the generation client never raises: its value is always either image
bytes or the single no-result signal `none`; if every call throws a retryable
error it returns no-result after exhausting MAX_RETRIES calls; and a response
none of whose parts carries inline image data returns no-result. -/
theorem client_never_raises (call : Nat → CallOutcome) :
    ((generate_image_from_prompt call).fst = none ∨
      ∃ b, (generate_image_from_prompt call).fst = some b) ∧
    ((∀ n, ∃ msg, call n = CallOutcome.error msg ∧
        (isRateLimitMessage (toLowerStr msg) || isServerErrorMessage (toLowerStr msg)) = true) →
      generate_image_from_prompt call = (none, MAX_RETRIES)) ∧
    (∀ parts, call 0 = CallOutcome.success parts →
      (∀ pt ∈ parts, pt = RespPart.noData) →
      (generate_image_from_prompt call).fst = none) := by
  refine ⟨?_, ?_, ?_⟩
  · cases h : (generate_image_from_prompt call).fst with
    | none => exact Or.inl rfl
    | some b => exact Or.inr ⟨b, rfl⟩
  · intro hcall
    unfold generate_image_from_prompt
    have h := genLoop_all_retryable MAX_RETRIES 0 rfl call hcall 0
    simpa using h
  · intro parts h0 hparts
    unfold generate_image_from_prompt
    rw [genLoop_success_step call MAX_RETRIES 0 0 parts (by decide) (by decide) h0,
        extractImage_all_noData parts hparts]

/-- Witness for `client_never_raises`: a response whose single part carries
only text yields no-result. -/
theorem client_never_raises_check :
    (generate_image_from_prompt (fun _ => CallOutcome.success [RespPart.noData])).fst
      = none :=
  (client_never_raises (fun _ => CallOutcome.success [RespPart.noData])).2.2
    [RespPart.noData] rfl (by intro pt hpt; simpa using hpt)

/-- Looking up the key just written finds the written value. -/
theorem lookup_cons_same {β : Type} (k : String) (b : β) (l : List (String × β)) :
    ((k, b) :: l).lookup k = some b := by
  simp [List.lookup]

/-- A write to a key that was absent preserves every present binding. -/
theorem lookup_cons_of_lookup_some {β : Type} (k p : String) (b : β)
    (l : List (String × β)) (v : β)
    (hl : l.lookup p = some v) (hk : l.lookup k = none) :
    ((k, b) :: l).lookup p = some v := by
  have hpk : (p == k) = false := by
    by_cases h : p = k
    · subst h
      rw [hl] at hk
      cases hk
    · exact beq_eq_false_iff_ne.mpr h
  simp [List.lookup, hpk, hl]

/-- Skip branch of the driver loop body: the output already exists. -/
theorem stepFile_skip (md5hex : List Nat → String) (folder : String) (mf : MetaFile)
    (acc : RunResult)
    (h : (acc.state.outputs.lookup (outputPath folder mf.name)).isSome = true) :
    stepFile md5hex folder mf acc =
      { acc with skipped := acc.skipped + 1, processed := acc.processed + 1,
                 skippedFiles := acc.skippedFiles ++ [outputPath folder mf.name] } := by
  unfold stepFile
  rw [if_pos h]

/-- Read/parse error branch of the driver loop body. -/
theorem stepFile_readError (md5hex : List Nat → String) (folder : String) (mf : MetaFile)
    (acc : RunResult)
    (h : acc.state.outputs.lookup (outputPath folder mf.name) = none)
    (hr : mf.read = ReadResult.readError) :
    stepFile md5hex folder mf acc =
      { acc with failures := acc.failures + 1, processed := acc.processed + 1,
                 sleeps := acc.sleeps ++ [mf.pause] } := by
  unfold stepFile
  rw [hr, if_neg (by simp [h])]

/-- Missing `image_prompt` branch of the driver loop body. -/
theorem stepFile_noPrompt (md5hex : List Nat → String) (folder : String) (mf : MetaFile)
    (acc : RunResult)
    (h : acc.state.outputs.lookup (outputPath folder mf.name) = none)
    (hr : mf.read = ReadResult.noPrompt) :
    stepFile md5hex folder mf acc =
      { acc with failures := acc.failures + 1, processed := acc.processed + 1,
                 sleeps := acc.sleeps ++ [mf.pause] } := by
  unfold stepFile
  rw [hr, if_neg (by simp [h])]

/-- Generation no-result branch of the driver loop body. -/
theorem stepFile_genNone (md5hex : List Nat → String) (folder : String) (mf : MetaFile)
    (acc : RunResult) (p : String)
    (h : acc.state.outputs.lookup (outputPath folder mf.name) = none)
    (hr : mf.read = ReadResult.withPrompt p)
    (hg : (generate_image_from_prompt mf.call).fst = none) :
    stepFile md5hex folder mf acc =
      { acc with clientInvocations := acc.clientInvocations + 1,
                 failures := acc.failures + 1, processed := acc.processed + 1,
                 sleeps := acc.sleeps ++ [mf.pause] } := by
  unfold stepFile
  rw [hr, if_neg (by simp [h]), hg]

/-- Successful generation, write and sidecar branch of the driver loop body. -/
theorem stepFile_success (md5hex : List Nat → String) (folder : String) (mf : MetaFile)
    (acc : RunResult) (p : String) (image_data : List Nat)
    (h : acc.state.outputs.lookup (outputPath folder mf.name) = none)
    (hr : mf.read = ReadResult.withPrompt p)
    (hg : (generate_image_from_prompt mf.call).fst = some image_data)
    (hne : image_data.isEmpty = false) (hw : mf.write = WriteOutcome.ok)
    (hm : mf.markOk = true) :
    stepFile md5hex folder mf acc =
      { acc with clientInvocations := acc.clientInvocations + 1,
                 processed := acc.processed + 1,
                 state := mark_prompt_processed md5hex p (outputPath folder mf.name)
                   { acc.state with outputs :=
                       (outputPath folder mf.name, image_data) :: acc.state.outputs },
                 generated := acc.generated ++ [outputPath folder mf.name],
                 sleeps := acc.sleeps ++ [mf.pause] } := by
  unfold stepFile
  rw [hr, if_neg (by simp [h]), hg]
  dsimp only
  simp [hne, hw, hm]

/-- The output write raises before `open` creates the file: a failure with no
on-disk effect. -/
theorem stepFile_writeFailBeforeOpen (md5hex : List Nat → String) (folder : String)
    (mf : MetaFile) (acc : RunResult) (p : String) (image_data : List Nat)
    (h : acc.state.outputs.lookup (outputPath folder mf.name) = none)
    (hr : mf.read = ReadResult.withPrompt p)
    (hg : (generate_image_from_prompt mf.call).fst = some image_data)
    (hne : image_data.isEmpty = false) (hw : mf.write = WriteOutcome.failBeforeOpen) :
    stepFile md5hex folder mf acc =
      { acc with clientInvocations := acc.clientInvocations + 1,
                 failures := acc.failures + 1, processed := acc.processed + 1,
                 sleeps := acc.sleeps ++ [mf.pause] } := by
  unfold stepFile
  rw [hr, if_neg (by simp [h]), hg]
  dsimp only
  simp [hne, hw]

/-- The output write raises after `open` created/truncated the file: a
failure that leaves a partial output file on disk and no sidecar. -/
theorem stepFile_writeFailAfterOpen (md5hex : List Nat → String) (folder : String)
    (mf : MetaFile) (acc : RunResult) (p : String) (image_data written : List Nat)
    (h : acc.state.outputs.lookup (outputPath folder mf.name) = none)
    (hr : mf.read = ReadResult.withPrompt p)
    (hg : (generate_image_from_prompt mf.call).fst = some image_data)
    (hne : image_data.isEmpty = false)
    (hw : mf.write = WriteOutcome.failAfterOpen written) :
    stepFile md5hex folder mf acc =
      { acc with clientInvocations := acc.clientInvocations + 1,
                 failures := acc.failures + 1, processed := acc.processed + 1,
                 state := { acc.state with outputs :=
                   (outputPath folder mf.name, written) :: acc.state.outputs },
                 generated := acc.generated ++ [outputPath folder mf.name],
                 sleeps := acc.sleeps ++ [mf.pause] } := by
  unfold stepFile
  rw [hr, if_neg (by simp [h]), hg]
  dsimp only
  simp [hne, hw]

/-- `mark_prompt_processed` raises after the image bytes were fully written:
a failure with the output file on disk and no sidecar. -/
theorem stepFile_markFail (md5hex : List Nat → String) (folder : String)
    (mf : MetaFile) (acc : RunResult) (p : String) (image_data : List Nat)
    (h : acc.state.outputs.lookup (outputPath folder mf.name) = none)
    (hr : mf.read = ReadResult.withPrompt p)
    (hg : (generate_image_from_prompt mf.call).fst = some image_data)
    (hne : image_data.isEmpty = false) (hw : mf.write = WriteOutcome.ok)
    (hm : mf.markOk = false) :
    stepFile md5hex folder mf acc =
      { acc with clientInvocations := acc.clientInvocations + 1,
                 failures := acc.failures + 1, processed := acc.processed + 1,
                 state := { acc.state with outputs :=
                   (outputPath folder mf.name, image_data) :: acc.state.outputs },
                 generated := acc.generated ++ [outputPath folder mf.name],
                 sleeps := acc.sleeps ++ [mf.pause] } := by
  unfold stepFile
  rw [hr, if_neg (by simp [h]), hg]
  dsimp only
  simp [hne, hw, hm]

/-- Generation returned falsy (empty) bytes: `if image_data:` fails, so the
driver records a failure. -/
theorem stepFile_genEmpty (md5hex : List Nat → String) (folder : String) (mf : MetaFile)
    (acc : RunResult) (p : String) (image_data : List Nat)
    (h : acc.state.outputs.lookup (outputPath folder mf.name) = none)
    (hr : mf.read = ReadResult.withPrompt p)
    (hg : (generate_image_from_prompt mf.call).fst = some image_data)
    (hne : image_data.isEmpty = true) :
    stepFile md5hex folder mf acc =
      { acc with clientInvocations := acc.clientInvocations + 1,
                 failures := acc.failures + 1, processed := acc.processed + 1,
                 sleeps := acc.sleeps ++ [mf.pause] } := by
  unfold stepFile
  rw [hr, if_neg (by simp [h]), hg]
  dsimp only
  simp [hne]

/-- Case analysis on the six observably distinct outcomes of one driver loop
iteration: skip; a failure before the client is invoked; a failure after the
client is invoked with no on-disk effect; an interrupted output write leaving
a partial file; a sidecar-write failure after the image was persisted; and
full success. -/
theorem stepFile_elim (md5hex : List Nat → String) (folder : String) (mf : MetaFile)
    (acc : RunResult) (motive : RunResult → Prop)
    (hskip : (acc.state.outputs.lookup (outputPath folder mf.name)).isSome = true →
      motive { acc with
        skipped := acc.skipped + 1,
        processed := acc.processed + 1,
        skippedFiles := acc.skippedFiles ++ [outputPath folder mf.name] })
    (hfail : acc.state.outputs.lookup (outputPath folder mf.name) = none →
      motive { acc with
        failures := acc.failures + 1,
        processed := acc.processed + 1,
        sleeps := acc.sleeps ++ [mf.pause] })
    (hfailgen : acc.state.outputs.lookup (outputPath folder mf.name) = none →
      motive { acc with
        clientInvocations := acc.clientInvocations + 1,
        failures := acc.failures + 1,
        processed := acc.processed + 1,
        sleeps := acc.sleeps ++ [mf.pause] })
    (hfailmidwrite : ∀ (p : String) (image_data written : List Nat),
      acc.state.outputs.lookup (outputPath folder mf.name) = none →
      mf.read = ReadResult.withPrompt p →
      (generate_image_from_prompt mf.call).fst = some image_data →
      image_data.isEmpty = false → mf.write = WriteOutcome.failAfterOpen written →
      motive { acc with
        clientInvocations := acc.clientInvocations + 1,
        failures := acc.failures + 1,
        processed := acc.processed + 1,
        state := { acc.state with outputs :=
          (outputPath folder mf.name, written) :: acc.state.outputs },
        generated := acc.generated ++ [outputPath folder mf.name],
        sleeps := acc.sleeps ++ [mf.pause] })
    (hfailmark : ∀ (p : String) (image_data : List Nat),
      acc.state.outputs.lookup (outputPath folder mf.name) = none →
      mf.read = ReadResult.withPrompt p →
      (generate_image_from_prompt mf.call).fst = some image_data →
      image_data.isEmpty = false → mf.write = WriteOutcome.ok → mf.markOk = false →
      motive { acc with
        clientInvocations := acc.clientInvocations + 1,
        failures := acc.failures + 1,
        processed := acc.processed + 1,
        state := { acc.state with outputs :=
          (outputPath folder mf.name, image_data) :: acc.state.outputs },
        generated := acc.generated ++ [outputPath folder mf.name],
        sleeps := acc.sleeps ++ [mf.pause] })
    (hsucc : ∀ (p : String) (image_data : List Nat),
      acc.state.outputs.lookup (outputPath folder mf.name) = none →
      mf.read = ReadResult.withPrompt p →
      (generate_image_from_prompt mf.call).fst = some image_data →
      image_data.isEmpty = false → mf.write = WriteOutcome.ok → mf.markOk = true →
      motive { acc with
        clientInvocations := acc.clientInvocations + 1,
        processed := acc.processed + 1,
        state := mark_prompt_processed md5hex p (outputPath folder mf.name)
          { acc.state with outputs :=
              (outputPath folder mf.name, image_data) :: acc.state.outputs },
        generated := acc.generated ++ [outputPath folder mf.name],
        sleeps := acc.sleeps ++ [mf.pause] }) :
    motive (stepFile md5hex folder mf acc) := by
  by_cases hs : (acc.state.outputs.lookup (outputPath folder mf.name)).isSome = true
  · rw [stepFile_skip md5hex folder mf acc hs]
    exact hskip hs
  · have hn : acc.state.outputs.lookup (outputPath folder mf.name) = none := by
      cases hcase : acc.state.outputs.lookup (outputPath folder mf.name) with
      | none => rfl
      | some w => rw [hcase] at hs; simp at hs
    cases hr : mf.read with
    | readError =>
      rw [stepFile_readError md5hex folder mf acc hn hr]
      exact hfail hn
    | noPrompt =>
      rw [stepFile_noPrompt md5hex folder mf acc hn hr]
      exact hfail hn
    | withPrompt p =>
      cases hg : (generate_image_from_prompt mf.call).fst with
      | none =>
        rw [stepFile_genNone md5hex folder mf acc p hn hr hg]
        exact hfailgen hn
      | some image_data =>
        cases he : image_data.isEmpty with
        | true =>
          rw [stepFile_genEmpty md5hex folder mf acc p image_data hn hr hg he]
          exact hfailgen hn
        | false =>
          cases hw : mf.write with
          | failBeforeOpen =>
            rw [stepFile_writeFailBeforeOpen md5hex folder mf acc p image_data hn hr hg he hw]
            exact hfailgen hn
          | failAfterOpen written =>
            rw [stepFile_writeFailAfterOpen md5hex folder mf acc p image_data written
                  hn hr hg he hw]
            exact hfailmidwrite p image_data written hn hr hg he hw
          | ok =>
            cases hm : mf.markOk with
            | false =>
              rw [stepFile_markFail md5hex folder mf acc p image_data hn hr hg he hw hm]
              exact hfailmark p image_data hn hr hg he hw hm
            | true =>
              rw [stepFile_success md5hex folder mf acc p image_data hn hr hg he hw hm]
              exact hsucc p image_data hn hr hg he hw hm

/-- Every visited file increments `processed` by exactly one. -/
theorem stepFile_processed (md5hex : List Nat → String) (folder : String)
    (mf : MetaFile) (acc : RunResult) :
    (stepFile md5hex folder mf acc).processed = acc.processed + 1 := by
  refine stepFile_elim md5hex folder mf acc
    (fun r => r.processed = acc.processed + 1) ?_ ?_ ?_ ?_ ?_ ?_ <;> intros <;> rfl

/-- The failure counter never decreases across one file. -/
theorem stepFile_failures_mono (md5hex : List Nat → String) (folder : String)
    (mf : MetaFile) (acc : RunResult) :
    acc.failures ≤ (stepFile md5hex folder mf acc).failures := by
  refine stepFile_elim md5hex folder mf acc
    (fun r => acc.failures ≤ r.failures) ?_ ?_ ?_ ?_ ?_ ?_ <;> intros <;> simp

/-- One file raises the failure counter by at most one. -/
theorem stepFile_failures_le (md5hex : List Nat → String) (folder : String)
    (mf : MetaFile) (acc : RunResult) :
    (stepFile md5hex folder mf acc).failures ≤ acc.failures + 1 := by
  refine stepFile_elim md5hex folder mf acc
    (fun r => r.failures ≤ acc.failures + 1) ?_ ?_ ?_ ?_ ?_ ?_ <;> intros <;> simp

/-- A binding present among the outputs stays present, unchanged, after one
file. -/
theorem stepFile_outputs_mono (md5hex : List Nat → String) (folder : String)
    (mf : MetaFile) (acc : RunResult) (q : String) (v : List Nat)
    (hq : acc.state.outputs.lookup q = some v) :
    (stepFile md5hex folder mf acc).state.outputs.lookup q = some v := by
  refine stepFile_elim md5hex folder mf acc
    (fun r => r.state.outputs.lookup q = some v) ?_ ?_ ?_ ?_ ?_ ?_ <;> intros
  · exact hq
  · exact hq
  · exact hq
  · rename_i p image_data written hn _ _ _ _
    exact lookup_cons_of_lookup_some _ q _ _ v hq hn
  · rename_i p image_data hn _ _ _ _ _
    exact lookup_cons_of_lookup_some _ q _ _ v hq hn
  · rename_i p image_data hn _ _ _ _ _
    simp only [mark_prompt_processed]
    exact lookup_cons_of_lookup_some _ q _ _ v hq hn

/-- A file either contributes one failure, or leaves the failure counter alone
and guarantees its output path exists afterwards. -/
theorem stepFile_fail_or_out (md5hex : List Nat → String) (folder : String)
    (mf : MetaFile) (acc : RunResult) :
    (stepFile md5hex folder mf acc).failures = acc.failures + 1 ∨
    ((stepFile md5hex folder mf acc).failures = acc.failures ∧
      (((stepFile md5hex folder mf acc).state.outputs.lookup
          (outputPath folder mf.name)).isSome = true)) := by
  refine stepFile_elim md5hex folder mf acc
    (fun r => r.failures = acc.failures + 1 ∨
      (r.failures = acc.failures ∧
        ((r.state.outputs.lookup (outputPath folder mf.name)).isSome = true)))
    ?_ ?_ ?_ ?_ ?_ ?_
  · intro hs
    exact Or.inr ⟨rfl, hs⟩
  · intro _
    exact Or.inl rfl
  · intro _
    exact Or.inl rfl
  · intro p image_data written _ _ _ _ _
    exact Or.inl rfl
  · intro p image_data _ _ _ _ _ _
    exact Or.inl rfl
  · intro p image_data _ _ _ _ _ _
    refine Or.inr ⟨rfl, ?_⟩
    simp only [mark_prompt_processed]
    rw [lookup_cons_same]
    rfl

/-- Each visited file adds exactly one unit to `sleeps`-count-plus-`skipped`:
skipped files add no pause, every other outcome adds one pause. -/
theorem stepFile_sleeps_skipped (md5hex : List Nat → String) (folder : String)
    (mf : MetaFile) (acc : RunResult) :
    (stepFile md5hex folder mf acc).sleeps.length + (stepFile md5hex folder mf acc).skipped
      = acc.sleeps.length + acc.skipped + 1 := by
  refine stepFile_elim md5hex folder mf acc
    (fun r => r.sleeps.length + r.skipped = acc.sleeps.length + acc.skipped + 1)
    ?_ ?_ ?_ ?_ ?_ ?_ <;> intros <;> simp <;> omega

/-- Any pause slept after one file is either an earlier pause or this file's
draw. -/
theorem stepFile_sleeps_mem (md5hex : List Nat → String) (folder : String)
    (mf : MetaFile) (acc : RunResult) (d : ℚ)
    (hd : d ∈ (stepFile md5hex folder mf acc).sleeps) :
    d ∈ acc.sleeps ∨ d = mf.pause := by
  revert hd
  refine stepFile_elim md5hex folder mf acc
    (fun r => d ∈ r.sleeps → (d ∈ acc.sleeps ∨ d = mf.pause)) ?_ ?_ ?_ ?_ ?_ ?_
  · intro _ hd
    exact Or.inl hd
  · intro _ hd
    rcases List.mem_append.mp hd with h | h
    · exact Or.inl h
    · exact Or.inr (List.mem_singleton.mp h)
  · intro _ hd
    rcases List.mem_append.mp hd with h | h
    · exact Or.inl h
    · exact Or.inr (List.mem_singleton.mp h)
  · intro p image_data written _ _ _ _ _ hd
    rcases List.mem_append.mp hd with h | h
    · exact Or.inl h
    · exact Or.inr (List.mem_singleton.mp h)
  · intro p image_data _ _ _ _ _ _ hd
    rcases List.mem_append.mp hd with h | h
    · exact Or.inl h
    · exact Or.inr (List.mem_singleton.mp h)
  · intro p image_data _ _ _ _ _ _ hd
    rcases List.mem_append.mp hd with h | h
    · exact Or.inl h
    · exact Or.inr (List.mem_singleton.mp h)

/-- The empty-discovery early return coincides with the empty fold, so the
run is always the fold. -/
theorem process_eq_runFolders (md5hex : List Nat → String)
    (env : List (String × List MetaFile)) (st : FSState) :
    process_metadata_files md5hex env st = runFolders md5hex env (initRun st) := by
  cases env with
  | nil => rfl
  | cons hd tl => rfl

/-- Unfolding the inner loop one file at a time. -/
theorem runFolder_cons (md5hex : List Nat → String) (folder : String)
    (mf : MetaFile) (fs : List MetaFile) (acc : RunResult) :
    runFolder md5hex (folder, mf :: fs) acc
      = runFolder md5hex (folder, fs) (stepFile md5hex folder mf acc) := rfl

/-- Unfolding the outer loop one folder at a time. -/
theorem runFolders_cons (md5hex : List Nat → String)
    (folder : String × List MetaFile) (env : List (String × List MetaFile))
    (acc : RunResult) :
    runFolders md5hex (folder :: env) acc
      = runFolders md5hex env (runFolder md5hex folder acc) := rfl

/-- Present output bindings survive the inner loop unchanged. -/
theorem runFolder_outputs_mono (md5hex : List Nat → String) (folder : String)
    (fs : List MetaFile) (acc : RunResult) (q : String) (v : List Nat)
    (hq : acc.state.outputs.lookup q = some v) :
    (runFolder md5hex (folder, fs) acc).state.outputs.lookup q = some v := by
  induction fs generalizing acc with
  | nil => exact hq
  | cons mf fs ih =>
    rw [runFolder_cons]
    exact ih _ (stepFile_outputs_mono md5hex folder mf acc q v hq)

/-- Present output bindings survive the whole run unchanged. -/
theorem runFolders_outputs_mono (md5hex : List Nat → String)
    (env : List (String × List MetaFile)) (acc : RunResult) (q : String) (v : List Nat)
    (hq : acc.state.outputs.lookup q = some v) :
    (runFolders md5hex env acc).state.outputs.lookup q = some v := by
  induction env generalizing acc with
  | nil => exact hq
  | cons fo env ih =>
    rw [runFolders_cons]
    exact ih _ (runFolder_outputs_mono md5hex fo.fst fo.snd acc q v hq)

/-- The failure counter never decreases across the inner loop. -/
theorem runFolder_failures_mono (md5hex : List Nat → String) (folder : String)
    (fs : List MetaFile) (acc : RunResult) :
    acc.failures ≤ (runFolder md5hex (folder, fs) acc).failures := by
  induction fs generalizing acc with
  | nil => exact Nat.le_refl _
  | cons mf fs ih =>
    rw [runFolder_cons]
    exact Nat.le_trans (stepFile_failures_mono md5hex folder mf acc) (ih _)

/-- The failure counter never decreases across the outer loop. -/
theorem runFolders_failures_mono (md5hex : List Nat → String)
    (env : List (String × List MetaFile)) (acc : RunResult) :
    acc.failures ≤ (runFolders md5hex env acc).failures := by
  induction env generalizing acc with
  | nil => exact Nat.le_refl _
  | cons fo env ih =>
    rw [runFolders_cons]
    exact Nat.le_trans (runFolder_failures_mono md5hex fo.fst fo.snd acc) (ih _)

/-- The inner loop visits every discovered file exactly once. -/
theorem runFolder_processed (md5hex : List Nat → String) (folder : String)
    (fs : List MetaFile) (acc : RunResult) :
    (runFolder md5hex (folder, fs) acc).processed = acc.processed + fs.length := by
  induction fs generalizing acc with
  | nil => rfl
  | cons mf fs ih =>
    rw [runFolder_cons, ih, stepFile_processed]
    simp only [List.length_cons]
    omega

/-- The outer loop visits every discovered file exactly once. -/
theorem runFolders_processed (md5hex : List Nat → String)
    (env : List (String × List MetaFile)) (acc : RunResult) :
    (runFolders md5hex env acc).processed = acc.processed + totalFiles env := by
  induction env generalizing acc with
  | nil => simp [totalFiles, runFolders]
  | cons fo env ih =>
    rw [runFolders_cons, ih, runFolder_processed]
    simp only [totalFiles, List.map_cons, List.sum_cons]
    omega

/-- If the inner loop added no failures, every visited file's output exists in
the final state. -/
theorem runFolder_nofail_out (md5hex : List Nat → String) (folder : String)
    (fs : List MetaFile) (acc : RunResult)
    (h : (runFolder md5hex (folder, fs) acc).failures = acc.failures) :
    ∀ mf ∈ fs, ((runFolder md5hex (folder, fs) acc).state.outputs.lookup
      (outputPath folder mf.name)).isSome = true := by
  induction fs generalizing acc with
  | nil =>
    intro mf hmf
    cases hmf
  | cons mf0 fs ih =>
    rw [runFolder_cons] at h ⊢
    have h1 : acc.failures ≤ (stepFile md5hex folder mf0 acc).failures :=
      stepFile_failures_mono md5hex folder mf0 acc
    have h2 : (stepFile md5hex folder mf0 acc).failures ≤
        (runFolder md5hex (folder, fs) (stepFile md5hex folder mf0 acc)).failures :=
      runFolder_failures_mono md5hex folder fs _
    have hstep : (stepFile md5hex folder mf0 acc).failures = acc.failures := by omega
    intro mf hmf
    rcases List.mem_cons.mp hmf with heq | hmem
    · subst heq
      rcases stepFile_fail_or_out md5hex folder mf acc with hfail | ⟨_, hout⟩
      · omega
      · obtain ⟨v, hv⟩ := Option.isSome_iff_exists.mp hout
        rw [runFolder_outputs_mono md5hex folder fs _ _ v hv]
        rfl
    · exact ih (stepFile md5hex folder mf0 acc) (by rw [h, hstep]) mf hmem

/-- If the whole run added no failures, every discovered file's output exists
in the final state. -/
theorem runFolders_nofail_out (md5hex : List Nat → String)
    (env : List (String × List MetaFile)) (acc : RunResult)
    (h : (runFolders md5hex env acc).failures = acc.failures) :
    ∀ fo ∈ env, ∀ mf ∈ fo.snd,
      ((runFolders md5hex env acc).state.outputs.lookup
        (outputPath fo.fst mf.name)).isSome = true := by
  induction env generalizing acc with
  | nil =>
    intro fo hfo
    cases hfo
  | cons fo0 env ih =>
    rw [runFolders_cons] at h ⊢
    have h1 : acc.failures ≤ (runFolder md5hex fo0 acc).failures :=
      runFolder_failures_mono md5hex fo0.fst fo0.snd acc
    have h2 : (runFolder md5hex fo0 acc).failures ≤
        (runFolders md5hex env (runFolder md5hex fo0 acc)).failures :=
      runFolders_failures_mono md5hex env _
    have hfold : (runFolder md5hex fo0 acc).failures = acc.failures := by omega
    intro fo hfo mf hmf
    rcases List.mem_cons.mp hfo with heq | hmem
    · subst heq
      have hout := runFolder_nofail_out md5hex fo.fst fo.snd acc hfold mf hmf
      obtain ⟨v, hv⟩ := Option.isSome_iff_exists.mp hout
      rw [runFolders_outputs_mono md5hex env _ _ v hv]
      rfl
    · exact ih (runFolder md5hex fo0 acc) (by rw [h, hfold]) fo hmem mf hmf

/-- If every file's output already exists, the inner loop only skips: it
generates nothing, calls the client on nothing, and leaves the filesystem
untouched. -/
theorem runFolder_allskip (md5hex : List Nat → String) (folder : String)
    (fs : List MetaFile) (acc : RunResult)
    (h : ∀ mf ∈ fs, (acc.state.outputs.lookup (outputPath folder mf.name)).isSome = true) :
    (runFolder md5hex (folder, fs) acc).skipped = acc.skipped + fs.length ∧
    (runFolder md5hex (folder, fs) acc).generated = acc.generated ∧
    (runFolder md5hex (folder, fs) acc).clientInvocations = acc.clientInvocations ∧
    (runFolder md5hex (folder, fs) acc).state = acc.state ∧
    (runFolder md5hex (folder, fs) acc).failures = acc.failures := by
  induction fs generalizing acc with
  | nil => exact ⟨rfl, rfl, rfl, rfl, rfl⟩
  | cons mf fs ih =>
    rw [runFolder_cons, stepFile_skip md5hex folder mf acc (h mf (List.mem_cons_self mf fs))]
    have hfs : ∀ mf' ∈ fs,
        ((({ acc with
              skipped := acc.skipped + 1, processed := acc.processed + 1,
              skippedFiles := acc.skippedFiles ++ [outputPath folder mf.name]
            } : RunResult).state.outputs.lookup (outputPath folder mf'.name)).isSome
          = true) :=
      fun mf' hm => h mf' (List.mem_cons_of_mem mf hm)
    obtain ⟨s1, s2, s3, s4, s5⟩ := ih _ hfs
    refine ⟨?_, ?_, ?_, ?_, ?_⟩
    · rw [s1]
      simp only [List.length_cons]
      omega
    · rw [s2]
    · rw [s3]
    · rw [s4]
    · rw [s5]

/-- If every discovered file's output already exists, the whole run only
skips. -/
theorem runFolders_allskip (md5hex : List Nat → String)
    (env : List (String × List MetaFile)) (acc : RunResult)
    (h : ∀ fo ∈ env, ∀ mf ∈ fo.snd,
      (acc.state.outputs.lookup (outputPath fo.fst mf.name)).isSome = true) :
    (runFolders md5hex env acc).skipped = acc.skipped + totalFiles env ∧
    (runFolders md5hex env acc).generated = acc.generated ∧
    (runFolders md5hex env acc).clientInvocations = acc.clientInvocations ∧
    (runFolders md5hex env acc).state = acc.state ∧
    (runFolders md5hex env acc).failures = acc.failures := by
  induction env generalizing acc with
  | nil => exact ⟨by simp [totalFiles, runFolders], rfl, rfl, rfl, rfl⟩
  | cons fo env ih =>
    rw [runFolders_cons]
    obtain ⟨s1, s2, s3, s4, s5⟩ :=
      runFolder_allskip md5hex fo.fst fo.snd acc (h fo (List.mem_cons_self fo env))
    have henv : ∀ fo' ∈ env, ∀ mf ∈ fo'.snd,
        (((runFolder md5hex fo acc).state.outputs.lookup
          (outputPath fo'.fst mf.name)).isSome = true) := by
      intro fo' hfo mf hmf
      rw [s4]
      exact h fo' (List.mem_cons_of_mem fo hfo) mf hmf
    have hfo_pair : (fo.fst, fo.snd) = fo := rfl
    rw [hfo_pair] at s1 s2 s3 s4 s5
    obtain ⟨t1, t2, t3, t4, t5⟩ := ih (runFolder md5hex fo acc) henv
    refine ⟨?_, ?_, ?_, ?_, ?_⟩
    · rw [t1, s1]
      simp only [totalFiles, List.map_cons, List.sum_cons]
      omega
    · rw [t2, s2]
    · rw [t3, s3]
    · rw [t4, s4]
    · rw [t5, s5]

/-- A concrete md5 stand-in for evaluation. -/
def cexMd5 : List Nat → String := fun _ => "d41d8cd98f00b204e9800998ecf8427e"

/-- A metadata file whose parse finds no `image_prompt` field. -/
def cexNoPromptFile : MetaFile :=
  { name := "a", read := ReadResult.noPrompt,
    call := fun _ => CallOutcome.error "boom",
    write := WriteOutcome.ok, markOk := true, pause := 2 }

/-- One folder holding only the prompt-less file. -/
def cexEnvC5 : List (String × List MetaFile) := [("poems", [cexNoPromptFile])]

/-- Counterexample to C5 as stated: over a tree whose single metadata file
lacks its prompt field, the first run fails it, the second run fails it again
(its output still does not exist), so the second run's skipped count is 0,
not the total number of discovered files (1). -/
theorem batch_idempotence_cex :
    ¬ ((process_metadata_files cexMd5 cexEnvC5
          (process_metadata_files cexMd5 cexEnvC5 ⟨[], []⟩).state).generated = [] ∧
       (process_metadata_files cexMd5 cexEnvC5
          (process_metadata_files cexMd5 cexEnvC5 ⟨[], []⟩).state).skipped
         = totalFiles cexEnvC5) := by
  decide

/-- C5 (amended): if the first run reports zero failures, then a second run
over the unchanged tree, with no output files removed, generates zero new
images, invokes the Generation Client zero times, and skips every discovered
file. -/
theorem batch_idempotent_of_no_failures (md5hex : List Nat → String)
    (env : List (String × List MetaFile)) (st : FSState)
    (h : (process_metadata_files md5hex env st).failures = 0) :
    (process_metadata_files md5hex env
      (process_metadata_files md5hex env st).state).generated = [] ∧
    (process_metadata_files md5hex env
      (process_metadata_files md5hex env st).state).skipped = totalFiles env ∧
    (process_metadata_files md5hex env
      (process_metadata_files md5hex env st).state).clientInvocations = 0 := by
  rw [process_eq_runFolders] at h
  rw [process_eq_runFolders, process_eq_runFolders]
  have h0 : (runFolders md5hex env (initRun st)).failures = (initRun st).failures := h
  have hout := runFolders_nofail_out md5hex env (initRun st) h0
  have hall : ∀ fo ∈ env, ∀ mf ∈ fo.snd,
      (((initRun (runFolders md5hex env (initRun st)).state).state.outputs.lookup
        (outputPath fo.fst mf.name)).isSome = true) := by
    intro fo hfo mf hmf
    exact hout fo hfo mf hmf
  obtain ⟨s1, s2, s3, _, _⟩ :=
    runFolders_allskip md5hex env (initRun (runFolders md5hex env (initRun st)).state) hall
  exact ⟨s2, by rw [s1]; simp [initRun], s3⟩

/-- A fresh metadata file whose generation succeeds on the first call. -/
def goodFile : MetaFile :=
  { name := "b", read := ReadResult.withPrompt "a poem about rain",
    call := fun _ => CallOutcome.success [RespPart.goodData [137, 80, 78, 71]],
    write := WriteOutcome.ok, markOk := true, pause := 2 }

/-- One folder holding only the fresh, succeeding file. -/
def envGood : List (String × List MetaFile) := [("poems", [goodFile])]

/-- Witness for `batch_idempotent_of_no_failures` on a run with no failures. -/
theorem batch_idempotent_of_no_failures_check :
    (process_metadata_files cexMd5 envGood
      (process_metadata_files cexMd5 envGood ⟨[], []⟩).state).generated = [] ∧
    (process_metadata_files cexMd5 envGood
      (process_metadata_files cexMd5 envGood ⟨[], []⟩).state).skipped = totalFiles envGood ∧
    (process_metadata_files cexMd5 envGood
      (process_metadata_files cexMd5 envGood ⟨[], []⟩).state).clientInvocations = 0 :=
  batch_idempotent_of_no_failures cexMd5 envGood ⟨[], []⟩ (by decide)

/-- Across the inner loop, pauses-slept plus files-skipped equals files
visited. -/
theorem runFolder_sleeps_inv (md5hex : List Nat → String) (folder : String)
    (fs : List MetaFile) (acc : RunResult)
    (h : acc.sleeps.length + acc.skipped = acc.processed) :
    (runFolder md5hex (folder, fs) acc).sleeps.length
      + (runFolder md5hex (folder, fs) acc).skipped
      = (runFolder md5hex (folder, fs) acc).processed := by
  induction fs generalizing acc with
  | nil => exact h
  | cons mf fs ih =>
    rw [runFolder_cons]
    apply ih
    have h1 := stepFile_sleeps_skipped md5hex folder mf acc
    have h2 := stepFile_processed md5hex folder mf acc
    omega

/-- Across the whole run, pauses-slept plus files-skipped equals files
visited. -/
theorem runFolders_sleeps_inv (md5hex : List Nat → String)
    (env : List (String × List MetaFile)) (acc : RunResult)
    (h : acc.sleeps.length + acc.skipped = acc.processed) :
    (runFolders md5hex env acc).sleeps.length + (runFolders md5hex env acc).skipped
      = (runFolders md5hex env acc).processed := by
  induction env generalizing acc with
  | nil => exact h
  | cons fo env ih =>
    rw [runFolders_cons]
    exact ih _ (runFolder_sleeps_inv md5hex fo.fst fo.snd acc h)

/-- Every pause slept by the inner loop is an earlier pause or some visited
file's draw. -/
theorem runFolder_sleeps_mem (md5hex : List Nat → String) (folder : String)
    (fs : List MetaFile) (acc : RunResult) (d : ℚ)
    (hd : d ∈ (runFolder md5hex (folder, fs) acc).sleeps) :
    d ∈ acc.sleeps ∨ ∃ mf ∈ fs, d = mf.pause := by
  induction fs generalizing acc with
  | nil => exact Or.inl hd
  | cons mf fs ih =>
    rw [runFolder_cons] at hd
    rcases ih _ hd with h | ⟨mf', hm, he⟩
    · rcases stepFile_sleeps_mem md5hex folder mf acc d h with h2 | h2
      · exact Or.inl h2
      · exact Or.inr ⟨mf, List.mem_cons_self mf fs, h2⟩
    · exact Or.inr ⟨mf', List.mem_cons_of_mem mf hm, he⟩

/-- Every pause slept by the run is an earlier pause or some discovered
file's draw. -/
theorem runFolders_sleeps_mem (md5hex : List Nat → String)
    (env : List (String × List MetaFile)) (acc : RunResult) (d : ℚ)
    (hd : d ∈ (runFolders md5hex env acc).sleeps) :
    d ∈ acc.sleeps ∨ ∃ fo ∈ env, ∃ mf ∈ fo.snd, d = mf.pause := by
  induction env generalizing acc with
  | nil => exact Or.inl hd
  | cons fo env ih =>
    rw [runFolders_cons] at hd
    rcases ih _ hd with h | ⟨fo', hfo, mf, hmf, he⟩
    · rcases runFolder_sleeps_mem md5hex fo.fst fo.snd acc d h with h2 | ⟨mf, hmf, he⟩
      · exact Or.inl h2
      · exact Or.inr ⟨fo, List.mem_cons_self fo env, mf, hmf, he⟩
    · exact Or.inr ⟨fo', List.mem_cons_of_mem fo hfo, mf, hmf, he⟩

/-- A metadata file whose generation would succeed but whose output already
exists, so the driver skips it. -/
def cexSkipFile : MetaFile :=
  { name := "c", read := ReadResult.withPrompt "x",
    call := fun _ => CallOutcome.success [RespPart.goodData [1]],
    write := WriteOutcome.ok, markOk := true, pause := 2 }

/-- One folder holding only the to-be-skipped file. -/
def cexEnvC9 : List (String × List MetaFile) := [("poems", [cexSkipFile])]

/-- A state in which the skipped file's output already exists. -/
def cexStC9 : FSState := ⟨[("poems/c.png", [9])], []⟩

/-- Counterexample to C9 as stated: over a tree whose single file is skipped,
the run visits 1 file but sleeps 0 inter-file pauses, because the skip branch
`continue`s past `time.sleep(random.uniform(1, 3))`. -/
theorem batch_sleep_cex :
    ¬ ((process_metadata_files cexMd5 cexEnvC9 cexStC9).sleeps.length
        = (process_metadata_files cexMd5 cexEnvC9 cexStC9).processed) := by
  decide

/-- C9 (amended): the driver sleeps one uniform-[1,3] pause after each
visited file that was not skipped — pauses slept plus files skipped equals
files visited — and, provided every file's draw is within [1, 3], every pause
slept is within [1, 3]. -/
theorem batch_sleep_throttle (md5hex : List Nat → String)
    (env : List (String × List MetaFile)) (st : FSState)
    (hb : ∀ fo ∈ env, ∀ mf ∈ fo.snd, 1 ≤ mf.pause ∧ mf.pause ≤ 3) :
    (process_metadata_files md5hex env st).sleeps.length
      + (process_metadata_files md5hex env st).skipped
      = (process_metadata_files md5hex env st).processed ∧
    ∀ d ∈ (process_metadata_files md5hex env st).sleeps, 1 ≤ d ∧ d ≤ 3 := by
  rw [process_eq_runFolders]
  constructor
  · exact runFolders_sleeps_inv md5hex env (initRun st) rfl
  · intro d hd
    rcases runFolders_sleeps_mem md5hex env (initRun st) d hd with h | ⟨fo, hfo, mf, hmf, he⟩
    · simp [initRun] at h
    · rw [he]
      exact hb fo hfo mf hmf

/-- Witness for `batch_sleep_throttle` on the one-file succeeding tree. -/
theorem batch_sleep_throttle_check :
    (process_metadata_files cexMd5 envGood ⟨[], []⟩).sleeps.length
      + (process_metadata_files cexMd5 envGood ⟨[], []⟩).skipped
      = (process_metadata_files cexMd5 envGood ⟨[], []⟩).processed ∧
    ∀ d ∈ (process_metadata_files cexMd5 envGood ⟨[], []⟩).sleeps, 1 ≤ d ∧ d ≤ 3 :=
  batch_sleep_throttle cexMd5 envGood ⟨[], []⟩ (by
    intro fo hfo mf hmf
    simp only [envGood, List.mem_singleton] at hfo
    subst hfo
    simp only [goodFile, List.mem_singleton] at hmf
    subst hmf
    norm_num)

/-- Two run tallies that agree on everything except the contents of the
checksum sidecar directory. -/
def EqExceptChecksums (a b : RunResult) : Prop :=
  a.processed = b.processed ∧ a.skipped = b.skipped ∧ a.failures = b.failures ∧
  a.generated = b.generated ∧ a.skippedFiles = b.skippedFiles ∧ a.sleeps = b.sleeps ∧
  a.clientInvocations = b.clientInvocations ∧ a.state.outputs = b.state.outputs

/-- One driver iteration never reads the sidecar directory: runs that differ
only in it stay in lockstep. -/
theorem stepFile_checksum_indep (md5hex : List Nat → String) (folder : String)
    (mf : MetaFile) (acc1 acc2 : RunResult)
    (h : EqExceptChecksums acc1 acc2) :
    EqExceptChecksums (stepFile md5hex folder mf acc1) (stepFile md5hex folder mf acc2) := by
  obtain ⟨hp, hsk, hf, hg, hsf, hsl, hc, ho⟩ := h
  by_cases hs : (acc1.state.outputs.lookup (outputPath folder mf.name)).isSome = true
  · have hs2 : (acc2.state.outputs.lookup (outputPath folder mf.name)).isSome = true := by
      rw [← ho]
      exact hs
    rw [stepFile_skip md5hex folder mf acc1 hs, stepFile_skip md5hex folder mf acc2 hs2]
    exact ⟨by simp [hp], by simp [hsk], hf, hg, by rw [hsf], hsl, hc, ho⟩
  · have hn1 : acc1.state.outputs.lookup (outputPath folder mf.name) = none :=
      Option.not_isSome_iff_eq_none.mp hs
    have hn2 : acc2.state.outputs.lookup (outputPath folder mf.name) = none := by
      rw [← ho]
      exact hn1
    cases hr : mf.read with
    | readError =>
      rw [stepFile_readError md5hex folder mf acc1 hn1 hr,
          stepFile_readError md5hex folder mf acc2 hn2 hr]
      exact ⟨by simp [hp], hsk, by simp [hf], hg, hsf, by rw [hsl], hc, ho⟩
    | noPrompt =>
      rw [stepFile_noPrompt md5hex folder mf acc1 hn1 hr,
          stepFile_noPrompt md5hex folder mf acc2 hn2 hr]
      exact ⟨by simp [hp], hsk, by simp [hf], hg, hsf, by rw [hsl], hc, ho⟩
    | withPrompt p =>
      cases hgen : (generate_image_from_prompt mf.call).fst with
      | none =>
        rw [stepFile_genNone md5hex folder mf acc1 p hn1 hr hgen,
            stepFile_genNone md5hex folder mf acc2 p hn2 hr hgen]
        exact ⟨by simp [hp], hsk, by simp [hf], hg, hsf, by rw [hsl], by simp [hc], ho⟩
      | some image_data =>
        cases he : image_data.isEmpty with
        | true =>
          rw [stepFile_genEmpty md5hex folder mf acc1 p image_data hn1 hr hgen he,
              stepFile_genEmpty md5hex folder mf acc2 p image_data hn2 hr hgen he]
          exact ⟨by simp [hp], hsk, by simp [hf], hg, hsf, by rw [hsl], by simp [hc], ho⟩
        | false =>
          cases hw : mf.write with
          | failBeforeOpen =>
            rw [stepFile_writeFailBeforeOpen md5hex folder mf acc1 p image_data
                  hn1 hr hgen he hw,
                stepFile_writeFailBeforeOpen md5hex folder mf acc2 p image_data
                  hn2 hr hgen he hw]
            exact ⟨by simp [hp], hsk, by simp [hf], hg, hsf, by rw [hsl], by simp [hc], ho⟩
          | failAfterOpen written =>
            rw [stepFile_writeFailAfterOpen md5hex folder mf acc1 p image_data written
                  hn1 hr hgen he hw,
                stepFile_writeFailAfterOpen md5hex folder mf acc2 p image_data written
                  hn2 hr hgen he hw]
            refine ⟨by simp [hp], hsk, by simp [hf], by rw [hg], hsf, by rw [hsl],
              by simp [hc], ?_⟩
            rw [ho]
          | ok =>
            cases hm : mf.markOk with
            | false =>
              rw [stepFile_markFail md5hex folder mf acc1 p image_data hn1 hr hgen he hw hm,
                  stepFile_markFail md5hex folder mf acc2 p image_data hn2 hr hgen he hw hm]
              refine ⟨by simp [hp], hsk, by simp [hf], by rw [hg], hsf, by rw [hsl],
                by simp [hc], ?_⟩
              rw [ho]
            | true =>
              rw [stepFile_success md5hex folder mf acc1 p image_data hn1 hr hgen he hw hm,
                  stepFile_success md5hex folder mf acc2 p image_data hn2 hr hgen he hw hm]
              refine ⟨by simp [hp], hsk, hf, by rw [hg], hsf, by rw [hsl], by simp [hc], ?_⟩
              simp only [mark_prompt_processed]
              rw [ho]

/-- The inner loop never reads the sidecar directory. -/
theorem runFolder_checksum_indep (md5hex : List Nat → String) (folder : String)
    (fs : List MetaFile) (acc1 acc2 : RunResult)
    (h : EqExceptChecksums acc1 acc2) :
    EqExceptChecksums (runFolder md5hex (folder, fs) acc1)
      (runFolder md5hex (folder, fs) acc2) := by
  induction fs generalizing acc1 acc2 with
  | nil => exact h
  | cons mf fs ih =>
    rw [runFolder_cons, runFolder_cons]
    exact ih _ _ (stepFile_checksum_indep md5hex folder mf acc1 acc2 h)

/-- The whole run never reads the sidecar directory. -/
theorem runFolders_checksum_indep (md5hex : List Nat → String)
    (env : List (String × List MetaFile)) (acc1 acc2 : RunResult)
    (h : EqExceptChecksums acc1 acc2) :
    EqExceptChecksums (runFolders md5hex env acc1) (runFolders md5hex env acc2) := by
  induction env generalizing acc1 acc2 with
  | nil => exact h
  | cons fo env ih =>
    rw [runFolders_cons, runFolders_cons]
    have hfo : EqExceptChecksums (runFolder md5hex fo acc1) (runFolder md5hex fo acc2) :=
      runFolder_checksum_indep md5hex fo.fst fo.snd acc1 acc2 h
    exact ih _ _ hfo

/-- C8: two runs over states that differ only in the contents of the
`.image_checksums` sidecar directory produce identical counters, identical
generated and skipped file lists, and identical output trees: the skip
decision consults only output-file existence, never the checksum store. -/
theorem batch_checksum_independent (md5hex : List Nat → String)
    (env : List (String × List MetaFile)) (outs : List (String × List Nat))
    (cs1 cs2 : List (String × String)) :
    (process_metadata_files md5hex env ⟨outs, cs1⟩).processed
      = (process_metadata_files md5hex env ⟨outs, cs2⟩).processed ∧
    (process_metadata_files md5hex env ⟨outs, cs1⟩).skipped
      = (process_metadata_files md5hex env ⟨outs, cs2⟩).skipped ∧
    (process_metadata_files md5hex env ⟨outs, cs1⟩).failures
      = (process_metadata_files md5hex env ⟨outs, cs2⟩).failures ∧
    (process_metadata_files md5hex env ⟨outs, cs1⟩).generated
      = (process_metadata_files md5hex env ⟨outs, cs2⟩).generated ∧
    (process_metadata_files md5hex env ⟨outs, cs1⟩).skippedFiles
      = (process_metadata_files md5hex env ⟨outs, cs2⟩).skippedFiles ∧
    (process_metadata_files md5hex env ⟨outs, cs1⟩).state.outputs
      = (process_metadata_files md5hex env ⟨outs, cs2⟩).state.outputs := by
  rw [process_eq_runFolders, process_eq_runFolders]
  have h := runFolders_checksum_indep md5hex env (initRun ⟨outs, cs1⟩) (initRun ⟨outs, cs2⟩)
    ⟨rfl, rfl, rfl, rfl, rfl, rfl, rfl, rfl⟩
  exact ⟨h.1, h.2.1, h.2.2.1, h.2.2.2.1, h.2.2.2.2.1, h.2.2.2.2.2.2.2⟩

/-- A metadata file with a prompt, whose output image already exists. -/
def scExisting : MetaFile :=
  { name := "old", read := ReadResult.withPrompt "prompt already rendered",
    call := fun _ => CallOutcome.success [RespPart.goodData [1]],
    write := WriteOutcome.ok, markOk := true, pause := 1 }

/-- The 3-file scenario directory: one file missing its prompt field, one
whose output exists, one fresh whose generation succeeds. -/
def scEnv : List (String × List MetaFile) :=
  [("poems", [cexNoPromptFile, scExisting, goodFile])]

/-- The scenario's initial filesystem: only the existing file's output. -/
def scSt : FSState := ⟨[("poems/old.png", [5])], []⟩

/-- C1: per-file accounting of the batch driver. A file whose output exists
adds to skipped and processed only; a missing prompt field, a read/parse
error, a generation no-result, and a write error of any mode (raising before
`open`, raising mid-write, or the sidecar write raising) each add to failed
and processed only; a full success adds to processed only and appends exactly
one new output. In particular the 3-file scenario — one prompt-less file, one
existing output, one fresh success — yields processed=3, skipped=1, failed=1
and exactly one new output image file. -/
theorem batch_accounting (md5hex : List Nat → String) :
    (∀ (folder : String) (mf : MetaFile) (acc : RunResult),
      (acc.state.outputs.lookup (outputPath folder mf.name)).isSome = true →
      (stepFile md5hex folder mf acc).skipped = acc.skipped + 1 ∧
      (stepFile md5hex folder mf acc).processed = acc.processed + 1 ∧
      (stepFile md5hex folder mf acc).failures = acc.failures) ∧
    (∀ (folder : String) (mf : MetaFile) (acc : RunResult),
      acc.state.outputs.lookup (outputPath folder mf.name) = none →
      mf.read = ReadResult.noPrompt →
      (stepFile md5hex folder mf acc).failures = acc.failures + 1 ∧
      (stepFile md5hex folder mf acc).processed = acc.processed + 1 ∧
      (stepFile md5hex folder mf acc).skipped = acc.skipped) ∧
    (∀ (folder : String) (mf : MetaFile) (acc : RunResult),
      acc.state.outputs.lookup (outputPath folder mf.name) = none →
      mf.read = ReadResult.readError →
      (stepFile md5hex folder mf acc).failures = acc.failures + 1 ∧
      (stepFile md5hex folder mf acc).processed = acc.processed + 1 ∧
      (stepFile md5hex folder mf acc).skipped = acc.skipped) ∧
    (∀ (folder : String) (mf : MetaFile) (acc : RunResult) (p : String),
      acc.state.outputs.lookup (outputPath folder mf.name) = none →
      mf.read = ReadResult.withPrompt p →
      (generate_image_from_prompt mf.call).fst = none →
      (stepFile md5hex folder mf acc).failures = acc.failures + 1 ∧
      (stepFile md5hex folder mf acc).processed = acc.processed + 1 ∧
      (stepFile md5hex folder mf acc).skipped = acc.skipped) ∧
    (∀ (folder : String) (mf : MetaFile) (acc : RunResult) (p : String)
        (image_data : List Nat),
      acc.state.outputs.lookup (outputPath folder mf.name) = none →
      mf.read = ReadResult.withPrompt p →
      (generate_image_from_prompt mf.call).fst = some image_data →
      image_data.isEmpty = false → mf.write = WriteOutcome.failBeforeOpen →
      (stepFile md5hex folder mf acc).failures = acc.failures + 1 ∧
      (stepFile md5hex folder mf acc).processed = acc.processed + 1 ∧
      (stepFile md5hex folder mf acc).skipped = acc.skipped) ∧
    (∀ (folder : String) (mf : MetaFile) (acc : RunResult) (p : String)
        (image_data written : List Nat),
      acc.state.outputs.lookup (outputPath folder mf.name) = none →
      mf.read = ReadResult.withPrompt p →
      (generate_image_from_prompt mf.call).fst = some image_data →
      image_data.isEmpty = false → mf.write = WriteOutcome.failAfterOpen written →
      (stepFile md5hex folder mf acc).failures = acc.failures + 1 ∧
      (stepFile md5hex folder mf acc).processed = acc.processed + 1 ∧
      (stepFile md5hex folder mf acc).skipped = acc.skipped) ∧
    (∀ (folder : String) (mf : MetaFile) (acc : RunResult) (p : String)
        (image_data : List Nat),
      acc.state.outputs.lookup (outputPath folder mf.name) = none →
      mf.read = ReadResult.withPrompt p →
      (generate_image_from_prompt mf.call).fst = some image_data →
      image_data.isEmpty = false → mf.write = WriteOutcome.ok → mf.markOk = false →
      (stepFile md5hex folder mf acc).failures = acc.failures + 1 ∧
      (stepFile md5hex folder mf acc).processed = acc.processed + 1 ∧
      (stepFile md5hex folder mf acc).skipped = acc.skipped) ∧
    (∀ (folder : String) (mf : MetaFile) (acc : RunResult) (p : String)
        (image_data : List Nat),
      acc.state.outputs.lookup (outputPath folder mf.name) = none →
      mf.read = ReadResult.withPrompt p →
      (generate_image_from_prompt mf.call).fst = some image_data →
      image_data.isEmpty = false → mf.write = WriteOutcome.ok → mf.markOk = true →
      (stepFile md5hex folder mf acc).failures = acc.failures ∧
      (stepFile md5hex folder mf acc).skipped = acc.skipped ∧
      (stepFile md5hex folder mf acc).processed = acc.processed + 1 ∧
      (stepFile md5hex folder mf acc).generated
        = acc.generated ++ [outputPath folder mf.name]) ∧
    ((process_metadata_files cexMd5 scEnv scSt).processed = 3 ∧
     (process_metadata_files cexMd5 scEnv scSt).skipped = 1 ∧
     (process_metadata_files cexMd5 scEnv scSt).failures = 1 ∧
     (process_metadata_files cexMd5 scEnv scSt).generated = ["poems/b.png"]) := by
  refine ⟨?_, ?_, ?_, ?_, ?_, ?_, ?_, ?_, by decide⟩
  · intro folder mf acc h
    rw [stepFile_skip md5hex folder mf acc h]
    exact ⟨rfl, rfl, rfl⟩
  · intro folder mf acc h hr
    rw [stepFile_noPrompt md5hex folder mf acc h hr]
    exact ⟨rfl, rfl, rfl⟩
  · intro folder mf acc h hr
    rw [stepFile_readError md5hex folder mf acc h hr]
    exact ⟨rfl, rfl, rfl⟩
  · intro folder mf acc p h hr hg
    rw [stepFile_genNone md5hex folder mf acc p h hr hg]
    exact ⟨rfl, rfl, rfl⟩
  · intro folder mf acc p image_data h hr hg hne hw
    rw [stepFile_writeFailBeforeOpen md5hex folder mf acc p image_data h hr hg hne hw]
    exact ⟨rfl, rfl, rfl⟩
  · intro folder mf acc p image_data written h hr hg hne hw
    rw [stepFile_writeFailAfterOpen md5hex folder mf acc p image_data written h hr hg hne hw]
    exact ⟨rfl, rfl, rfl⟩
  · intro folder mf acc p image_data h hr hg hne hw hm
    rw [stepFile_markFail md5hex folder mf acc p image_data h hr hg hne hw hm]
    exact ⟨rfl, rfl, rfl⟩
  · intro folder mf acc p image_data h hr hg hne hw hm
    rw [stepFile_success md5hex folder mf acc p image_data h hr hg hne hw hm]
    exact ⟨rfl, rfl, rfl, rfl⟩

/-- Witness for `batch_accounting`: the skip conjunct at the existing-output
file, evaluated concretely. -/
theorem batch_accounting_check :
    (stepFile cexMd5 "poems" scExisting (initRun scSt)).skipped
      = (initRun scSt).skipped + 1 ∧
    (stepFile cexMd5 "poems" scExisting (initRun scSt)).processed
      = (initRun scSt).processed + 1 ∧
    (stepFile cexMd5 "poems" scExisting (initRun scSt)).failures
      = (initRun scSt).failures :=
  (batch_accounting cexMd5).1 "poems" scExisting (initRun scSt) (by decide)
